import Mathlib

/-!
Verification of the process-management core of a small rCore-style kernel
(`src/os/src/syscall/process.rs`, `src/os/src/task/mod.rs`).

The development is a shallow embedding: each Rust function that the claims
touch is translated into an executable Lean definition over explicit state
(a memory set with a page table and map areas, a kernel state with task
control blocks, a per-task accounting record).  Code of the repository that
is not present under `src/` (the `mm` module, the FIFO task manager, the
TCB `fork` internals) is modelled from the specification document and each
such definition says so in its doc comment.
-/

namespace RCore

/-- Page size in bytes (config::PAGE_SIZE, 4 KiB pages). -/
def PAGE_SIZE : Nat := 4096

/-- config::PAGE_SIZE_BITS. -/
def PAGE_SIZE_BITS : Nat := 12

/-- task::IDLE_PID, the pid whose exit halts the kernel. -/
def IDLE_PID : Nat := 0

/-- Pid of the init process: INITPROC is the first TCB ever created, so the
pid allocator hands it pid 0. -/
def INITPROC_PID : Nat := 0

/-- The complement of 0x7 on a 64-bit usize, i.e. the mask written
`!0x7` in `sys_mmap`'s check `port & !0x7 != 0`. -/
def USIZE_NOT_7 : Nat := 0xFFFFFFFFFFFFFFF8

/-! ## Page table and memory set

Modelled from the spec (the `mm` module is not under `src/`): a page table
translates virtual page numbers to physical page numbers (§4.2), a memory
set owns a page table plus an ordered list of map areas (§4.3).  We record
a mapping as an association list from vpn to ppn; permission bits are not
needed by the page-table-level claims. -/

/-- A page table, as the partial map vpn ↦ ppn it denotes. -/
abbrev PageTable : Type := List (Nat × Nat)

/-- Modelled from the spec: `PageTable::translate(vpn)` performs a read-only
walk and returns the entry when present (§4.2). -/
def translate (pt : PageTable) (vpn : Nat) : Option Nat :=
  (List.find? (fun e => e.1 == vpn) pt).map (fun e => e.2)

/-- Modelled from the spec: `PageTable::unmap(vpn)` clears a leaf entry;
no-op if absent (§4.2). -/
def pt_unmap (pt : PageTable) (vpn : Nat) : PageTable :=
  List.filter (fun e => e.1 != vpn) pt

/-- Modelled from the spec: `PageTable::map(vpn, ppn, perms)` installs a leaf
entry, failing (as a no-op) if a leaf already exists at `vpn` (§4.2). -/
def pt_map (pt : PageTable) (vpn ppn : Nat) : PageTable :=
  match translate pt vpn with
  | some _ => pt
  | none => (vpn, ppn) :: pt

/-- One contiguous mapped virtual region (`MapArea`): its vpn range
(`vpn_range.get_start`, exclusive end) and its permission bits. -/
structure MapArea where
  va_start : Nat
  va_end : Nat
  perm : Nat
deriving Repr, DecidableEq

/-- A process's address space (`MemorySet`): page table, ordered area list,
and the next free physical page number standing in for the frame
allocator's state. -/
structure MemorySet where
  page_table : PageTable
  areas : List MapArea
  next_ppn : Nat
deriving Repr, DecidableEq

/-- `VirtAddr::floor`: the page number containing a virtual address. -/
def va_floor (va : Nat) : Nat := va / PAGE_SIZE

/-- `VirtAddr::ceil`: the first page number at or after a virtual address. -/
def va_ceil (va : Nat) : Nat := (va + PAGE_SIZE - 1) / PAGE_SIZE

/-- Modelled from the spec: `MemorySet::insert_framed_area(start_va, end_va,
perms)` rounds to page boundaries, allocates one frame per covered page,
installs the mappings, records a new Map Area and returns 0 (§4.3; the only
failure path, frame exhaustion, halts the kernel per §4.1 and so has no
return value to model). -/
def MemorySet.insert_area (ms : MemorySet) (start_va end_va perm : Nat) :
    MemorySet × Int :=
  let s := va_floor start_va
  let e := va_ceil end_va
  let pt := (List.range (e - s)).foldl
    (fun pt i => pt_map pt (s + i) (ms.next_ppn + i)) ms.page_table
  ({ page_table := pt
     areas := ms.areas ++ [⟨s, e, perm⟩]
     next_ppn := ms.next_ppn + (e - s) }, 0)

/-- Bits of `MapPermission::V` (valid), from the `mm` module: `sys_mmap`
produces it as the forced `port |= 0x1`. -/
def MapPermission_V : Nat := 0x1

/-- Bits of `MapPermission::U` (user), forced by `sys_mmap` as `port |= 0x10`. -/
def MapPermission_U : Nat := 0x10

/-- `task::insert_framed_area` (task/mod.rs:195): takes the current task's
memory set, ors the U and V permission bits into the low byte of `prot`
(`prot as u8 | (MapPermission::U | MapPermission::V).bits()`) and delegates
to the memory set.  The claims run with a current task present, so the
`else -1` branch for a missing current task is kept at the syscall level
(see `sys_mmap`). -/
def insert_framed_area (ms : MemorySet) (start_va end_va prot : Nat) :
    MemorySet × Int :=
  let prot8 := (prot &&& 0xff) ||| (MapPermission_U ||| MapPermission_V)
  ms.insert_area start_va end_va prot8

/-- `task::un_map` (task/mod.rs:207): find the map area whose range starts
exactly at `vpn`; if found, unmap that single page from the page table
(`area.unmap_one(page_table, vpn)`) and return 0, else return -1.  The
found area itself stays in the area list. -/
def un_map (ms : MemorySet) (vpn : Nat) : MemorySet × Int :=
  match List.find? (fun a => a.va_start == vpn) ms.areas with
  | some _ => ({ ms with page_table := pt_unmap ms.page_table vpn }, 0)
  | none => (ms, -1)

/-- The body of `sys_munmap`'s loop: `for vpn in start_vpn..end_vpn
\x7b result = un_map(vpn); \x7d` — each iteration overwrites `result` with
that page's outcome. -/
def munmap_loop (ms : MemorySet) (vpns : List Nat) : MemorySet × Int :=
  vpns.foldl (fun acc vpn => un_map acc.1 vpn) (ms, 0)

/-- `sys_munmap` (syscall/process.rs:209): reject an unaligned `start`,
then run `un_map` over every vpn in `[floor(start), ceil(start+len))`,
returning the result of the last iteration (0 when the range is empty). -/
def sys_munmap (ms : MemorySet) (start len : Nat) : MemorySet × Int :=
  if start &&& 0xfff != 0 then (ms, -1)
  else
    let start_vpn := va_floor start
    let end_vpn := va_ceil (start + len)
    munmap_loop ms (List.range' start_vpn (end_vpn - start_vpn))

/-- `sys_mmap` (syscall/process.rs:176): validations in source order
(`len == 0`, `port & 0x7 == 0`, `port & !0x7 != 0`, `start & 0xfff != 0`,
each returning -1), then the port translation
`port = ((port << 1) & 0xf) | 0x10 | 0x1` and the call to
`insert_framed_area(start, start+len, port)`. -/
def sys_mmap (ms : MemorySet) (start len port : Nat) : MemorySet × Int :=
  if len == 0 then (ms, -1)
  else if port &&& 0x7 == 0 then (ms, -1)
  else if port &&& USIZE_NOT_7 != 0 then (ms, -1)
  else if start &&& 0xfff != 0 then (ms, -1)
  else
    let port1 := (port <<< 1) &&& 0xf
    let port2 := port1 ||| 0x10
    let port3 := port2 ||| 0x1
    insert_framed_area ms start (start + len) port3

/-- A page of `ms` "begins a mapped area" when some map area's range starts
exactly at it — the condition `un_map` requires for success. -/
def starts_area (ms : MemorySet) (vpn : Nat) : Bool :=
  (List.find? (fun a => a.va_start == vpn) ms.areas).isSome

/-- A recursion-friendly restatement of `munmap_loop`. -/
def munmap_go (ms : MemorySet) (r : Int) (vpns : List Nat) : MemorySet × Int :=
  match vpns with
  | [] => (ms, r)
  | v :: rest => munmap_go (un_map ms v).1 (un_map ms v).2 rest

theorem munmap_loop_eq_go (vpns : List Nat) : ∀ (ms : MemorySet) (r : Int),
    List.foldl (fun acc vpn => un_map acc.1 vpn) (ms, r) vpns =
      munmap_go ms r vpns := by
  induction vpns with
  | nil => intro ms r; rfl
  | cons v rest ih =>
    intro ms r
    rw [List.foldl_cons, munmap_go]
    have h := ih (un_map ms v).1 (un_map ms v).2
    simpa using h

theorem un_map_areas (ms : MemorySet) (v : Nat) :
    (un_map ms v).1.areas = ms.areas := by
  unfold un_map
  cases List.find? (fun a => a.va_start == v) ms.areas <;> rfl

theorem starts_area_un_map (ms : MemorySet) (v w : Nat) :
    starts_area (un_map ms v).1 w = starts_area ms w := by
  unfold starts_area
  rw [un_map_areas]

theorem translate_pt_unmap_none (pt : PageTable) (v w : Nat)
    (h : translate pt w = none) : translate (pt_unmap pt v) w = none := by
  unfold translate at h ⊢
  rw [Option.map_eq_none'] at h ⊢
  rw [List.find?_eq_none] at h ⊢
  intro x hx
  exact h x (List.mem_of_mem_filter hx)

theorem translate_pt_unmap_self (pt : PageTable) (v : Nat) :
    translate (pt_unmap pt v) v = none := by
  unfold translate
  rw [Option.map_eq_none', List.find?_eq_none]
  intro x hx
  have hx' := List.of_mem_filter hx
  simp only [bne_iff_ne, ne_eq] at hx'
  simp [hx']

theorem un_map_translate_none (ms : MemorySet) (v w : Nat)
    (h : translate ms.page_table w = none) :
    translate (un_map ms v).1.page_table w = none := by
  unfold un_map
  cases List.find? (fun a => a.va_start == v) ms.areas
  · exact h
  · exact translate_pt_unmap_none ms.page_table v w h

theorem un_map_translate_self (ms : MemorySet) (v : Nat)
    (h : starts_area ms v = true) :
    translate (un_map ms v).1.page_table v = none := by
  unfold starts_area at h
  unfold un_map
  cases hf : List.find? (fun a => a.va_start == v) ms.areas
  · rw [hf] at h
    simp at h
  · exact translate_pt_unmap_self ms.page_table v

theorem munmap_go_areas (vpns : List Nat) : ∀ (ms : MemorySet) (r : Int),
    (munmap_go ms r vpns).1.areas = ms.areas := by
  induction vpns with
  | nil => intro ms r; rfl
  | cons v rest ih =>
    intro ms r
    rw [munmap_go, ih]
    exact un_map_areas ms v

theorem munmap_go_translate_none (vpns : List Nat) :
    ∀ (ms : MemorySet) (r : Int) (w : Nat),
    translate ms.page_table w = none →
    translate (munmap_go ms r vpns).1.page_table w = none := by
  induction vpns with
  | nil => intro ms r w h; exact h
  | cons v rest ih =>
    intro ms r w h
    rw [munmap_go]
    exact ih _ _ _ (un_map_translate_none ms v w h)

theorem munmap_go_unmaps (vpns : List Nat) : ∀ (ms : MemorySet) (r : Int),
    (∀ v ∈ vpns, starts_area ms v = true) →
    ∀ v ∈ vpns, translate (munmap_go ms r vpns).1.page_table v = none := by
  induction vpns with
  | nil => intro ms r _ v hv; cases hv
  | cons x rest ih =>
    intro ms r h v hv
    rw [munmap_go]
    rcases List.mem_cons.mp hv with rfl | hv'
    · exact munmap_go_translate_none rest _ _ _
        (un_map_translate_self ms v (h v (List.mem_cons_self v rest)))
    · apply ih
      · intro u hu
        rw [starts_area_un_map]
        exact h u (List.mem_cons_of_mem x hu)
      · exact hv'

theorem munmap_go_concat (l : List Nat) : ∀ (ms : MemorySet) (r : Int) (v : Nat),
    munmap_go ms r (l ++ [v]) = un_map (munmap_go ms r l).1 v := by
  induction l with
  | nil =>
    intro ms r v
    show munmap_go ms r [v] = un_map ms v
    rw [munmap_go, munmap_go]
  | cons x rest ih =>
    intro ms r v
    rw [List.cons_append, munmap_go, munmap_go]
    exact ih _ _ _

theorem munmap_go_result_concat (l : List Nat) (ms : MemorySet) (r : Int)
    (v : Nat) :
    (munmap_go ms r (l ++ [v])).2 = if starts_area ms v = true then 0 else -1 := by
  rw [munmap_go_concat]
  unfold un_map starts_area
  rw [munmap_go_areas]
  cases List.find? (fun a => a.va_start == v) ms.areas <;> simp

theorem sys_munmap_aligned (ms : MemorySet) (start len : Nat)
    (h : start &&& 0xfff = 0) :
    sys_munmap ms start len =
      munmap_go ms 0 (List.range' (va_floor start)
        (va_ceil (start + len) - va_floor start)) := by
  unfold sys_munmap munmap_loop
  rw [if_neg (by simp [h])]
  exact munmap_loop_eq_go _ _ _

/-- C1 (amended): `sys_munmap(start, len)` returns -1 without unmapping
anything when `start` is not page-aligned.  When `start` is aligned it runs
`un_map` over each targeted page; a targeted page is unmapped exactly when
it is the starting page of some mapped area, and the return value reflects
only the last targeted page: in particular if every targeted page begins a
mapped area the call returns 0 and every targeted page translates to
absent afterwards, while a nonempty range whose last page begins no area
returns -1 (an earlier failing page does not force a -1 return — see the
counterexample). -/
theorem C1_sys_munmap_result (ms : MemorySet) (start len : Nat) :
    (start &&& 0xfff ≠ 0 → sys_munmap ms start len = (ms, -1)) ∧
    (start &&& 0xfff = 0 →
      ((∀ vpn, va_floor start ≤ vpn → vpn < va_ceil (start + len) →
          starts_area ms vpn = true) →
        (sys_munmap ms start len).2 = 0 ∧
        ∀ vpn, va_floor start ≤ vpn → vpn < va_ceil (start + len) →
          translate (sys_munmap ms start len).1.page_table vpn = none) ∧
      (va_floor start < va_ceil (start + len) →
        starts_area ms (va_ceil (start + len) - 1) = false →
        (sys_munmap ms start len).2 = -1)) := by
  constructor
  · intro h
    unfold sys_munmap
    rw [if_pos (by simp [h])]
  · intro h
    have hred := sys_munmap_aligned ms start len h
    constructor
    · intro hall
      constructor
      · rw [hred]
        rcases hn : va_ceil (start + len) - va_floor start with - | n
        · rfl
        · rw [List.range'_1_concat, munmap_go_result_concat]
          have hst : starts_area ms (va_floor start + n) = true := by
            apply hall
            · omega
            · omega
          rw [hst]
          simp
      · intro vpn h1 h2
        rw [hred]
        apply munmap_go_unmaps
        · intro v hv
          rw [List.mem_range'_1] at hv
          apply hall
          · exact hv.1
          · omega
        · rw [List.mem_range'_1]
          omega
    · intro hlt hlast
      rw [hred]
      have hn : va_ceil (start + len) - va_floor start =
          (va_ceil (start + len) - va_floor start - 1) + 1 := by omega
      rw [hn, List.range'_1_concat, munmap_go_result_concat]
      have heq : va_floor start + (va_ceil (start + len) - va_floor start - 1) =
          va_ceil (start + len) - 1 := by omega
      rw [heq, hlast]
      simp

/-- C1 counterexample: with one mapped area starting at page 1 and no area
at page 0, `sys_munmap(0, 8192)` targets pages 0 and 1; page 0 has no
matching mapped area, yet the call returns 0 (the failing -1 of page 0 is
overwritten by page 1's success), contradicting the claim that it returns
-1 whenever a targeted page has no matching mapped area. -/
theorem C1_counterexample :
    (sys_munmap ⟨[(1, 7)], [⟨1, 2, 0⟩], 8⟩ 0 8192).2 = 0 ∧
    starts_area ⟨[(1, 7)], [⟨1, 2, 0⟩], 8⟩ 0 = false ∧
    0 &&& 0xfff = 0 ∧
    va_floor 0 = 0 ∧ va_ceil (0 + 8192) = 2 := by
  refine ⟨?_, by decide, by decide, by decide, by decide⟩
  decide

/-- Witness for C1: a concrete aligned single-area call on which the
amended theorem discharges: every targeted page begins an area, the call
returns 0 and the page translates to absent afterwards. -/
theorem C1_witness :
    (sys_munmap ⟨[(2, 5)], [⟨2, 3, 0⟩], 9⟩ 8192 4096).2 = 0 ∧
    translate (sys_munmap ⟨[(2, 5)], [⟨2, 3, 0⟩], 9⟩ 8192 4096).1.page_table 2
      = none := by
  have h := (C1_sys_munmap_result ⟨[(2, 5)], [⟨2, 3, 0⟩], 9⟩ 8192 4096).2
  have hall : ∀ vpn, va_floor 8192 ≤ vpn → vpn < va_ceil (8192 + 4096) →
      starts_area ⟨[(2, 5)], [⟨2, 3, 0⟩], 9⟩ vpn = true := by
    intro vpn h1 h2
    simp only [va_floor, va_ceil, PAGE_SIZE] at h1 h2
    norm_num at h1 h2
    interval_cases vpn
    decide
  have h2 := (h (by decide)).1 hall
  exact ⟨h2.1, h2.2 2 (by decide) (by decide)⟩

/-- The permission bits recorded by a successful `sys_mmap(_, _, port)`:
the syscall's port translation `((port << 1) & 0xf) | 0x10 | 0x1` composed
with `insert_framed_area`'s cast to u8 and forced user and valid bits. -/
def mmap_page_perm (port : Nat) : Nat :=
  ((((port <<< 1) &&& 0xf) ||| 0x10 ||| 0x1) &&& 0xff) |||
    (MapPermission_U ||| MapPermission_V)

theorem sys_mmap_valid_eq (ms : MemorySet) (start len port : Nat)
    (h1 : len ≠ 0) (h2 : port &&& 0x7 ≠ 0) (h3 : port &&& USIZE_NOT_7 = 0)
    (h4 : start &&& 0xfff = 0) :
    sys_mmap ms start len port =
      insert_framed_area ms start (start + len)
        (((port <<< 1) &&& 0xf) ||| 0x10 ||| 0x1) := by
  simp [sys_mmap, h1, h2, h3, h4]

/-- C3: `sys_mmap` returns -1 on each validation failure (`len == 0`, low 3
bits of `port` all zero, any `port` bit outside the low 3 set, unaligned
`start`) leaving the address space unchanged; when all validations pass it
records a framed area over the page range of `[start, start+len)` whose
permission bits have valid (bit 0) and user (bit 4) forced set and whose
read/write/execute bits (1, 2, 3) mirror `port`'s bits 0, 1, 2, and it
returns the insertion result 0. -/
theorem C3_sys_mmap_validation (ms : MemorySet) (start len port : Nat) :
    (len = 0 → sys_mmap ms start len port = (ms, -1)) ∧
    (port &&& 0x7 = 0 → sys_mmap ms start len port = (ms, -1)) ∧
    (port &&& USIZE_NOT_7 ≠ 0 → sys_mmap ms start len port = (ms, -1)) ∧
    (start &&& 0xfff ≠ 0 → sys_mmap ms start len port = (ms, -1)) ∧
    (len ≠ 0 → port &&& 0x7 ≠ 0 → port &&& USIZE_NOT_7 = 0 →
      start &&& 0xfff = 0 →
      (sys_mmap ms start len port).2 = 0 ∧
      (sys_mmap ms start len port).1.areas =
        ms.areas ++
          [⟨va_floor start, va_ceil (start + len), mmap_page_perm port⟩] ∧
      Nat.testBit (mmap_page_perm port) 0 = true ∧
      Nat.testBit (mmap_page_perm port) 4 = true ∧
      Nat.testBit (mmap_page_perm port) 1 = Nat.testBit port 0 ∧
      Nat.testBit (mmap_page_perm port) 2 = Nat.testBit port 1 ∧
      Nat.testBit (mmap_page_perm port) 3 = Nat.testBit port 2) := by
  refine ⟨?_, ?_, ?_, ?_, ?_⟩
  · intro h
    simp [sys_mmap, h]
  · intro h
    by_cases hl : len = 0
    · simp [sys_mmap, hl]
    · simp [sys_mmap, hl, h]
  · intro h
    by_cases hl : len = 0
    · simp [sys_mmap, hl]
    · by_cases hp : port &&& 0x7 = 0
      · simp [sys_mmap, hl, hp]
      · simp [sys_mmap, hl, hp, h]
  · intro h
    by_cases hl : len = 0
    · simp [sys_mmap, hl]
    · by_cases hp : port &&& 0x7 = 0
      · simp [sys_mmap, hl, hp]
      · by_cases hq : port &&& USIZE_NOT_7 = 0
        · simp [sys_mmap, hl, hp, hq, h]
        · simp [sys_mmap, hl, hp, hq]
  · intro h1 h2 h3 h4
    have hred := sys_mmap_valid_eq ms start len port h1 h2 h3 h4
    refine ⟨?_, ?_, ?_, ?_, ?_, ?_, ?_⟩
    · rw [hred]; rfl
    · rw [hred]; rfl
    · simp [mmap_page_perm, MapPermission_U, MapPermission_V,
        show Nat.testBit 1 0 = true from by decide]
    · simp [mmap_page_perm, MapPermission_U, MapPermission_V,
        show Nat.testBit 16 4 = true from by decide,
        show Nat.testBit 255 4 = true from by decide,
        show Nat.testBit 17 4 = true from by decide]
    · simp [mmap_page_perm, MapPermission_U, MapPermission_V,
        show Nat.testBit 15 1 = true from by decide,
        show Nat.testBit 16 1 = false from by decide,
        show Nat.testBit 1 1 = false from by decide,
        show Nat.testBit 255 1 = true from by decide,
        show Nat.testBit 17 1 = false from by decide]
    · simp [mmap_page_perm, MapPermission_U, MapPermission_V,
        show Nat.testBit 15 2 = true from by decide,
        show Nat.testBit 16 2 = false from by decide,
        show Nat.testBit 1 2 = false from by decide,
        show Nat.testBit 255 2 = true from by decide,
        show Nat.testBit 17 2 = false from by decide]
    · simp [mmap_page_perm, MapPermission_U, MapPermission_V,
        show Nat.testBit 15 3 = true from by decide,
        show Nat.testBit 16 3 = false from by decide,
        show Nat.testBit 1 3 = false from by decide,
        show Nat.testBit 255 3 = true from by decide,
        show Nat.testBit 17 3 = false from by decide]

/-- Witness for C3: the success branch at `start = 4096`, `len = 42`,
`port = 0b011` (read+write): the recorded permission bits are
valid+read+write+user = 0x17, and each validation-failure branch fires on a
concrete bad input. -/
theorem C3_witness :
    (sys_mmap ⟨[], [], 0⟩ 4096 42 3).2 = 0 ∧
    (sys_mmap ⟨[], [], 0⟩ 4096 42 3).1.areas =
      [⟨1, 2, mmap_page_perm 3⟩] ∧
    sys_mmap ⟨[], [], 0⟩ 4096 0 3 = (⟨[], [], 0⟩, -1) ∧
    sys_mmap ⟨[], [], 0⟩ 4096 42 8 = (⟨[], [], 0⟩, -1) ∧
    sys_mmap ⟨[], [], 0⟩ 4097 42 3 = (⟨[], [], 0⟩, -1) := by
  have h := C3_sys_mmap_validation ⟨[], [], 0⟩ 4096 42 3
  have hs := h.2.2.2.2 (by decide) (by decide) (by decide) (by decide)
  refine ⟨hs.1, ?_, ?_, ?_, ?_⟩
  · rw [hs.2.1]
    rfl
  · exact (C3_sys_mmap_validation ⟨[], [], 0⟩ 4096 0 3).1 rfl
  · exact (C3_sys_mmap_validation ⟨[], [], 0⟩ 4096 42 8).2.1 (by decide)
  · exact (C3_sys_mmap_validation ⟨[], [], 0⟩ 4097 42 3).2.2.2.1 (by decide)

theorem land_fff_eq_mod (x : Nat) : x &&& 0xfff = x % 4096 := by
  have h := Nat.and_pow_two_sub_one_eq_mod x 12
  norm_num at h
  exact h

theorem starts_area_iff (ms : MemorySet) (s : Nat) :
    starts_area ms s = true ↔ ∃ x ∈ ms.areas, x.va_start = s := by
  unfold starts_area
  rw [List.find?_isSome]
  simp

/-- C4 (amended): for a range covering a single page over which `sys_mmap`
has just succeeded, `sys_munmap` over the identical range returns 0,
removes the translation of every page in the range, and `translate` on
each of those pages afterwards returns absent.  (For a range covering more
than one page the round trip fails: `un_map` only matches a page that
begins a recorded area, so every page after the first stays mapped — see
the counterexample.) -/
theorem C4_mmap_munmap_roundtrip (ms : MemorySet) (start len port : Nat)
    (h1 : len ≠ 0) (hlen : len ≤ PAGE_SIZE)
    (h2 : port &&& 0x7 ≠ 0) (h3 : port &&& USIZE_NOT_7 = 0)
    (h4 : start &&& 0xfff = 0) :
    (sys_mmap ms start len port).2 = 0 ∧
    (sys_munmap (sys_mmap ms start len port).1 start len).2 = 0 ∧
    ∀ vpn, va_floor start ≤ vpn → vpn < va_ceil (start + len) →
      translate
        (sys_munmap (sys_mmap ms start len port).1 start len).1.page_table
        vpn = none := by
  have hred := sys_mmap_valid_eq ms start len port h1 h2 h3 h4
  have hmod : start % 4096 = 0 := by rw [← land_fff_eq_mod]; exact h4
  have hlen' : len ≤ 4096 := hlen
  have he : va_ceil (start + len) = va_floor start + 1 := by
    unfold va_ceil va_floor PAGE_SIZE
    omega
  have harea : (sys_mmap ms start len port).1.areas =
      ms.areas ++ [⟨va_floor start, va_ceil (start + len), mmap_page_perm port⟩] := by
    rw [hred]
    rfl
  have hstart : starts_area (sys_mmap ms start len port).1 (va_floor start)
      = true := by
    rw [starts_area_iff, harea]
    exact ⟨⟨va_floor start, va_ceil (start + len), mmap_page_perm port⟩,
      by simp, rfl⟩
  have hone : va_ceil (start + len) - va_floor start = 1 := by omega
  have hrange : List.range' (va_floor start)
      (va_ceil (start + len) - va_floor start) = [] ++ [va_floor start] := by
    rw [hone]
    rfl
  have hmun := sys_munmap_aligned (sys_mmap ms start len port).1 start len h4
  rw [hrange] at hmun
  refine ⟨by rw [hred]; rfl, ?_, ?_⟩
  · rw [hmun, munmap_go_result_concat, hstart]
    simp
  · intro vpn hv1 hv2
    have hvpn : vpn = va_floor start := by omega
    subst hvpn
    rw [hmun]
    apply munmap_go_unmaps
    · intro v hv
      rw [List.nil_append, List.mem_singleton] at hv
      subst hv
      exact hstart
    · simp

/-- C4 counterexample: over the two-page range `[4096, 4096+8192)`,
`sys_mmap` succeeds (returns 0) but the immediately following `sys_munmap`
over the identical range returns -1 and leaves page 2 still translated,
contradicting the claim that every page of the range becomes absent. -/
theorem C4_counterexample :
    (sys_mmap ⟨[], [], 0⟩ 4096 8192 3).2 = 0 ∧
    (sys_munmap (sys_mmap ⟨[], [], 0⟩ 4096 8192 3).1 4096 8192).2 = -1 ∧
    translate
      (sys_munmap (sys_mmap ⟨[], [], 0⟩ 4096 8192 3).1 4096 8192).1.page_table
      2 = some 1 := by
  refine ⟨?_, ?_, ?_⟩ <;> decide

/-- Witness for C4: the amended round trip at the concrete single-page
range `[4096, 4096+4096)` with a read-only port. -/
theorem C4_witness :
    (sys_mmap ⟨[], [], 0⟩ 4096 4096 1).2 = 0 ∧
    (sys_munmap (sys_mmap ⟨[], [], 0⟩ 4096 4096 1).1 4096 4096).2 = 0 ∧
    translate
      (sys_munmap (sys_mmap ⟨[], [], 0⟩ 4096 4096 1).1 4096 4096).1.page_table
      1 = none := by
  have h := C4_mmap_munmap_roundtrip ⟨[], [], 0⟩ 4096 4096 1
    (by decide) (by decide) (by decide) (by decide) (by decide)
  exact ⟨h.1, h.2.1, h.2.2 1 (by decide) (by decide)⟩

/-! ## User-pointer translation and the timer/task-info syscalls -/

/-- TimeVal (syscall/process.rs:19): seconds and microseconds. -/
structure TimeVal where
  sec : Nat
  usec : Nat
deriving Repr, DecidableEq

/-- TaskStatus (task module): the four lifecycle states of a TCB. -/
inductive TaskStatus where
  | UnInit
  | Ready
  | Running
  | Zombie
deriving Repr, DecidableEq

/-- TaskInfo (syscall/process.rs:26): status, per-syscall counters (u32
values, kept as a function from syscall id), total running time. -/
structure TaskInfo where
  status : TaskStatus
  syscall_times : Nat → Nat
  time : Nat

/-- get_pa_from_va (syscall/process.rs:139): rebuild the current task's
page table from its token, translate the page of `va` and combine
`ppn << PAGE_SIZE_BITS | page_offset`.  The source calls `.unwrap()` on the
translation, a kernel panic when the page is unmapped, modelled as `none`. -/
def get_pa_from_va (pt : PageTable) (va : Nat) : Option Nat :=
  match translate pt (va / PAGE_SIZE) with
  | none => none
  | some ppn => some ((ppn <<< PAGE_SIZE_BITS) ||| (va % PAGE_SIZE))

/-- sys_get_time (syscall/process.rs:126): translate `ts` to a physical
address, read the microsecond counter `us` and store the pair
`(us / 1000000, us % 1000000)` through the physical pointer, returning 0.
Physical memory holding TimeVal records is modelled as a function from
physical addresses; the `_tz` argument is unused in the source; a `none`
result is the kernel panic inside `get_pa_from_va`. -/
def sys_get_time (pt : PageTable) (mem : Nat → TimeVal) (ts us : Nat) :
    Option ((Nat → TimeVal) × Int) :=
  match get_pa_from_va pt ts with
  | none => none
  | some ts_pa =>
      some (Function.update mem ts_pa ⟨us / 1000000, us % 1000000⟩, 0)

/-- sys_task_info (syscall/process.rs:151): translate `ti`, then write the
current task's status and accounting record through the physical pointer
and return 0, or return -1 when there is no current task.  `cur` packages
`get_current_task_status` and `get_current_task_info`, which both read the
same current task; a `none` result is the unwrap panic on an unmapped
`ti`. -/
def sys_task_info (pt : PageTable) (mem : Nat → TaskInfo) (ti : Nat)
    (cur : Option (TaskStatus × TaskInfo)) :
    Option ((Nat → TaskInfo) × Int) :=
  match get_pa_from_va pt ti with
  | none => none
  | some ti_pa =>
    match cur with
    | none => some (mem, -1)
    | some (st, info) =>
        some (Function.update mem ti_pa ⟨st, info.syscall_times, info.time⟩, 0)

/-- C8: with a translatable `ts` pointer, `sys_get_time` reads the
microsecond counter `us` and writes `sec = us / 1000000` and
`usec = us % 1000000` through the translated pointer, returning 0. -/
theorem C8_sys_get_time_writes (pt : PageTable) (mem : Nat → TimeVal)
    (ts us pa : Nat) (h : get_pa_from_va pt ts = some pa) :
    ∃ mem2, sys_get_time pt mem ts us = some (mem2, 0) ∧
      mem2 pa = ⟨us / 1000000, us % 1000000⟩ := by
  refine ⟨Function.update mem pa ⟨us / 1000000, us % 1000000⟩, ?_, ?_⟩
  · unfold sys_get_time
    rw [h]
  · simp

/-- Witness for C8 at a concrete mapped pointer: page 0 maps to ppn 5, so
virtual address 8 translates to physical address 20488, and with
us = 2500000 the stored pair is (2, 500000). -/
theorem C8_witness :
    ∃ mem2,
      sys_get_time [(0, 5)] (fun _ => ⟨0, 0⟩) 8 2500000 = some (mem2, 0) ∧
      mem2 20488 = ⟨2, 500000⟩ := by
  have h := C8_sys_get_time_writes [(0, 5)] (fun _ => ⟨0, 0⟩) 8 2500000 20488
    (by decide)
  simpa using h

/-- C9: a user pointer whose page is unmapped in the current page table
makes `get_pa_from_va` hit its `.unwrap()` panic, so `sys_get_time` and
`sys_task_info` end in a kernel panic (`none`) rather than returning a -1
error sentinel. -/
theorem C9_unmapped_pointer_panics (pt : PageTable) (mem : Nat → TimeVal)
    (mem2 : Nat → TaskInfo) (va us : Nat)
    (cur : Option (TaskStatus × TaskInfo))
    (h : translate pt (va / PAGE_SIZE) = none) :
    get_pa_from_va pt va = none ∧
    sys_get_time pt mem va us = none ∧
    sys_task_info pt mem2 va cur = none := by
  have hpa : get_pa_from_va pt va = none := by
    unfold get_pa_from_va
    rw [h]
  refine ⟨hpa, ?_, ?_⟩
  · unfold sys_get_time
    rw [hpa]
  · unfold sys_task_info
    rw [hpa]

/-- Witness for C9: the empty page table maps nothing, so both syscalls
panic on pointer 0 instead of returning -1. -/
theorem C9_witness :
    get_pa_from_va [] 0 = none ∧
    sys_get_time [] (fun _ => ⟨0, 0⟩) 0 0 = none ∧
    sys_task_info [] (fun _ => ⟨TaskStatus.Running, fun _ => 0, 0⟩) 0 none
      = none :=
  C9_unmapped_pointer_panics [] (fun _ => ⟨0, 0⟩)
    (fun _ => ⟨TaskStatus.Running, fun _ => 0, 0⟩) 0 0 none rfl

/-! ## Per-task accounting -/

/-- The modulus of a u32 counter (`syscall_times: [u32; MAX_SYSCALL_NUM]`). -/
def U32_MOD : Nat := 2 ^ 32

/-- Modelled from the spec: the yield syscall id the dispatcher passes to
the accounting hook (the syscall numbering module is not under src/;
RISC-V Linux numbering). -/
def SYSCALL_YIELD : Nat := 124

/-- The fields of a TCB's inner state that `set_current_task_info`
(task/mod.rs:175) reads and writes. -/
structure TcbInner where
  task_status : TaskStatus
  start_time : Nat
  end_time : Nat
  task_info : TaskInfo

/-- set_current_task_info (task/mod.rs:175): on a dispatched syscall, set
`start_time` on first use (the `start_time == 0` sentinel), refresh
`end_time`, recompute `time = end_time - start_time`, bump the u32 counter
of `syscall_id` and copy the task status into the info record.  `now1` and
`now2` are the two successive `get_time_ms()` readings (lines 180 and
182). -/
def set_current_task_info (inner : TcbInner) (now1 now2 syscall_id : Nat) :
    TcbInner :=
  let st := if inner.start_time = 0 then now1 else inner.start_time
  { task_status := inner.task_status
    start_time := st
    end_time := now2
    task_info :=
      { status := inner.task_status
        syscall_times := Function.update inner.task_info.syscall_times
          syscall_id
          ((inner.task_info.syscall_times syscall_id + 1) % U32_MOD)
        time := now2 - st } }

/-- One dispatched syscall as the accounting sees it: the syscall id and
the two clock readings.  Modelled from the spec: the trap front end invokes
the accounting hook once per dispatched syscall (§6). -/
abbrev SyscallEvent : Type := Nat × Nat × Nat

/-- The accounting state after a sequence of dispatched syscalls. -/
def run_syscalls (inner : TcbInner) (tr : List SyscallEvent) : TcbInner :=
  tr.foldl (fun acc e => set_current_task_info acc e.2.1 e.2.2 e.1) inner

/-- The `time` values that successive `sys_task_info` polls would report:
one entry per dispatched syscall. -/
def times_list (inner : TcbInner) : List SyscallEvent → List Nat
  | [] => []
  | e :: rest =>
    (set_current_task_info inner e.2.1 e.2.2 e.1).task_info.time ::
      times_list (set_current_task_info inner e.2.1 e.2.2 e.1) rest

/-- The clock readings of a trace are monotone, starting at or after `e`. -/
def clock_mono (e : Nat) : List SyscallEvent → Bool
  | [] => true
  | (_, n1, n2) :: rest =>
    decide (e ≤ n1) && decide (n1 ≤ n2) && clock_mono n2 rest

/-- A freshly created task's accounting state (task creation and fork
reset the counters and timestamps). -/
def initial_inner (st : TaskStatus) : TcbInner :=
  { task_status := st
    start_time := 0
    end_time := 0
    task_info := { status := st, syscall_times := fun _ => 0, time := 0 } }

theorem run_syscalls_counter (tr : List SyscallEvent) :
    ∀ (inner : TcbInner) (y : Nat),
    inner.task_info.syscall_times y < U32_MOD →
    (run_syscalls inner tr).task_info.syscall_times y =
      (inner.task_info.syscall_times y + (tr.map (fun e => e.1)).count y)
        % U32_MOD := by
  induction tr with
  | nil =>
    intro inner y h
    simp [run_syscalls, Nat.mod_eq_of_lt h]
  | cons e rest ih =>
    intro inner y h
    have hstep : run_syscalls inner (e :: rest) =
        run_syscalls (set_current_task_info inner e.2.1 e.2.2 e.1) rest := rfl
    rw [hstep]
    by_cases hy : e.1 = y
    · have hc : (set_current_task_info inner e.2.1 e.2.2 e.1).task_info.syscall_times y
          = (inner.task_info.syscall_times y + 1) % U32_MOD := by
        subst hy
        simp [set_current_task_info]
      have hlt : (set_current_task_info inner e.2.1 e.2.2 e.1).task_info.syscall_times y
          < U32_MOD := by
        rw [hc]
        exact Nat.mod_lt _ (by norm_num [U32_MOD])
      rw [ih _ y hlt, hc, Nat.mod_add_mod]
      have hcount : ((e :: rest).map (fun e => e.1)).count y =
          (rest.map (fun e => e.1)).count y + 1 := by
        simp [List.count_cons, hy]
      rw [hcount]
      congr 1
      omega
    · have hc : (set_current_task_info inner e.2.1 e.2.2 e.1).task_info.syscall_times y
          = inner.task_info.syscall_times y := by
        simp [set_current_task_info, Function.update_noteq (Ne.symm hy)]
      have hcount : ((e :: rest).map (fun e => e.1)).count y =
          (rest.map (fun e => e.1)).count y := by
        simp [List.count_cons, hy]
      rw [ih _ y (by rw [hc]; exact h), hc, hcount]

theorem times_chain_aux (tr : List SyscallEvent) : ∀ (inner : TcbInner),
    0 < inner.start_time → inner.start_time ≤ inner.end_time →
    inner.task_info.time = inner.end_time - inner.start_time →
    clock_mono inner.end_time tr = true →
    List.Chain' (fun a b => a ≤ b)
      (inner.task_info.time :: times_list inner tr) := by
  induction tr with
  | nil =>
    intro inner h1 h2 h3 hc
    simp [times_list]
  | cons e rest ih =>
    intro inner h1 h2 h3 hc
    obtain ⟨id, n1, n2⟩ := e
    have hcc : (inner.end_time ≤ n1 ∧ n1 ≤ n2) ∧ clock_mono n2 rest = true := by
      simpa [clock_mono] using hc
    have hif : (if inner.start_time = 0 then n1 else inner.start_time) =
        inner.start_time := if_neg (by omega)
    have hfields :
        (set_current_task_info inner n1 n2 id).start_time = inner.start_time ∧
        (set_current_task_info inner n1 n2 id).end_time = n2 ∧
        (set_current_task_info inner n1 n2 id).task_info.time =
          n2 - inner.start_time := by
      refine ⟨?_, rfl, ?_⟩ <;> simp [set_current_task_info, hif]
    rw [times_list]
    rw [List.chain'_cons]
    constructor
    · rw [h3, hfields.2.2]
      omega
    · apply ih
      · rw [hfields.1]
        exact h1
      · rw [hfields.1, hfields.2.1]
        omega
      · rw [hfields.2.2, hfields.1, hfields.2.1]
      · rw [hfields.2.1]
        exact hcc.2

/-- C7 (amended): each dispatched syscall bumps the task's u32 counter for
its syscall id by one modulo 2^32, so after a trace containing `k < 2^32`
dispatches of a syscall id `y` the counter for `y` holds exactly `k`, and
`sys_task_info` on a translatable pointer reports exactly the stored
counters and time; provided the clock readings are monotone and the first
reading is nonzero (so the `start_time == 0` sentinel binds exactly once),
the reported `time` is monotonically non-decreasing across successive
polls. -/
theorem C7_syscall_accounting (tr : List SyscallEvent) (st : TaskStatus)
    (y : Nat) :
    (clock_mono 1 tr = true →
      List.Chain' (fun a b => a ≤ b) (times_list (initial_inner st) tr)) ∧
    ((tr.map (fun e => e.1)).count y < U32_MOD →
      (run_syscalls (initial_inner st) tr).task_info.syscall_times y =
        (tr.map (fun e => e.1)).count y) ∧
    (∀ (pt : PageTable) (mem : Nat → TaskInfo) (ti pa : Nat),
      get_pa_from_va pt ti = some pa →
      ∃ mem2,
        sys_task_info pt mem ti
          (some ((run_syscalls (initial_inner st) tr).task_status,
            (run_syscalls (initial_inner st) tr).task_info)) = some (mem2, 0) ∧
        (mem2 pa).syscall_times y =
          (run_syscalls (initial_inner st) tr).task_info.syscall_times y ∧
        (mem2 pa).time = (run_syscalls (initial_inner st) tr).task_info.time) := by
  refine ⟨?_, ?_, ?_⟩
  · intro hc
    cases tr with
    | nil => simp [times_list]
    | cons e rest =>
      obtain ⟨id, n1, n2⟩ := e
      have hcc : (1 ≤ n1 ∧ n1 ≤ n2) ∧ clock_mono n2 rest = true := by
        simpa [clock_mono] using hc
      obtain ⟨⟨hn1, hn12⟩, hrest⟩ := hcc
      rw [times_list]
      have h1 : 0 <
          (set_current_task_info (initial_inner st) n1 n2 id).start_time := by
        simp [set_current_task_info, initial_inner]
        omega
      have h2 : (set_current_task_info (initial_inner st) n1 n2 id).start_time ≤
          (set_current_task_info (initial_inner st) n1 n2 id).end_time := by
        simp [set_current_task_info, initial_inner]
        omega
      have h3 : (set_current_task_info (initial_inner st) n1 n2 id).task_info.time =
          (set_current_task_info (initial_inner st) n1 n2 id).end_time -
          (set_current_task_info (initial_inner st) n1 n2 id).start_time := by
        simp [set_current_task_info, initial_inner]
      have h4 : clock_mono
          (set_current_task_info (initial_inner st) n1 n2 id).end_time rest
            = true := by
        simpa [set_current_task_info] using hrest
      exact times_chain_aux rest _ h1 h2 h3 h4
  · intro hk
    have h0 : (initial_inner st).task_info.syscall_times y < U32_MOD := by
      simp [initial_inner, U32_MOD]
    rw [run_syscalls_counter tr (initial_inner st) y h0]
    have : (initial_inner st).task_info.syscall_times y = 0 := rfl
    rw [this, Nat.zero_add, Nat.mod_eq_of_lt hk]
  · intro pt mem ti pa h
    refine ⟨Function.update mem pa
      ⟨(run_syscalls (initial_inner st) tr).task_status,
       (run_syscalls (initial_inner st) tr).task_info.syscall_times,
       (run_syscalls (initial_inner st) tr).task_info.time⟩, ?_, ?_, ?_⟩
    · unfold sys_task_info
      rw [h]
    · simp
    · simp

/-- C7 counterexample: two failures of the claim as stated.  First, with
the monotone clock trace (0,1) then (100,100) — reading 0 at the very
first accounted syscall, as happens within the first millisecond after
boot — the reported times are [1, 0]: `time` decreases because the
`start_time == 0` sentinel re-binds `start_time` at the second call.
Second, the counters are u32: after exactly 2^32 yield dispatches the
counter reads 0, not 2^32. -/
theorem C7_counterexample :
    clock_mono 0 [(SYSCALL_YIELD, 0, 1), (SYSCALL_YIELD, 100, 100)] = true ∧
    times_list (initial_inner TaskStatus.Running)
      [(SYSCALL_YIELD, 0, 1), (SYSCALL_YIELD, 100, 100)] = [1, 0] ∧
    (run_syscalls (initial_inner TaskStatus.Running)
        (List.replicate U32_MOD (SYSCALL_YIELD, 1, 1))).task_info.syscall_times
      SYSCALL_YIELD = 0 ∧
    U32_MOD ≠ 0 := by
  refine ⟨by decide, by decide, ?_, by norm_num [U32_MOD]⟩
  have h0 : (initial_inner TaskStatus.Running).task_info.syscall_times
      SYSCALL_YIELD < U32_MOD := by
    simp [initial_inner, U32_MOD]
  rw [run_syscalls_counter _ _ _ h0]
  have hcount : ((List.replicate U32_MOD
      ((SYSCALL_YIELD, 1, 1) : SyscallEvent)).map (fun e => e.1)).count
        SYSCALL_YIELD = U32_MOD := by
    rw [List.map_replicate]
    simp
  rw [hcount]
  have : (initial_inner TaskStatus.Running).task_info.syscall_times
      SYSCALL_YIELD = 0 := rfl
  rw [this, Nat.zero_add, Nat.mod_self]

/-- Witness for C7: a concrete trace with three yields among four
syscalls: the counter reads 3, the reported times are monotone, and
`sys_task_info` through a mapped pointer reports the stored counter 3. -/
theorem C7_witness :
    List.Chain' (fun a b => a ≤ b)
      (times_list (initial_inner TaskStatus.Running)
        [(124, 5, 6), (124, 7, 7), (400, 8, 9), (124, 9, 9)]) ∧
    (run_syscalls (initial_inner TaskStatus.Running)
        [(124, 5, 6), (124, 7, 7), (400, 8, 9), (124, 9, 9)]).task_info.syscall_times
      124 = 3 ∧
    ∃ mem2,
      sys_task_info [(0, 3)] (fun _ => ⟨TaskStatus.Running, fun _ => 0, 0⟩) 0
        (some ((run_syscalls (initial_inner TaskStatus.Running)
            [(124, 5, 6), (124, 7, 7), (400, 8, 9), (124, 9, 9)]).task_status,
          (run_syscalls (initial_inner TaskStatus.Running)
            [(124, 5, 6), (124, 7, 7), (400, 8, 9), (124, 9, 9)]).task_info))
        = some (mem2, 0) ∧
      (mem2 12288).syscall_times 124 = 3 := by
  have h := C7_syscall_accounting
    [(124, 5, 6), (124, 7, 7), (400, 8, 9), (124, 9, 9)] TaskStatus.Running 124
  have hcount : (([(124, 5, 6), (124, 7, 7), (400, 8, 9), (124, 9, 9)] :
      List SyscallEvent).map (fun e => e.1)).count 124 = 3 := by decide
  have hctr := h.2.1 (by rw [hcount]; norm_num [U32_MOD])
  rw [hcount] at hctr
  obtain ⟨mem2, hm1, hm2, hm3⟩ := h.2.2 [(0, 3)]
    (fun _ => ⟨TaskStatus.Running, fun _ => 0, 0⟩) 0 12288 (by decide)
  exact ⟨h.1 (by decide), hctr, mem2, hm1, by rw [hm2, hctr]⟩

/-! ## Process lifecycle: TCBs, fork, exit, waitpid -/

/-- TrapContext — the trap module is not under src/.  Modelled from the
spec as the saved user register file (§3); `sys_fork` writes `x[10]`. -/
structure TrapContext where
  x : List Nat
deriving Repr, DecidableEq

/-- One task control block (task::task::TaskControlBlock together with its
inner, not under src/; fields per spec §3): the pieces the lifecycle
claims touch.  The pid is the key of the entry in `Kernel.tasks`. -/
structure TCB where
  status : TaskStatus
  exit_code : Int
  parent : Option Nat
  children : List Nat
  fd_table : List Nat
  trap_cx : TrapContext
  memory_set : MemorySet
deriving Repr, DecidableEq

/-- The kernel state the lifecycle syscalls share: all live TCBs keyed by
pid, the processor's current slot, the task manager's FIFO ready queue,
physical memory cells holding i32 exit codes, and the pid allocator's
next fresh pid. -/
structure Kernel where
  tasks : List (Nat × TCB)
  current : Option Nat
  ready_queue : List Nat
  mem : Nat → Int
  next_pid : Nat

/-- Look a pid up among the live TCBs. -/
def lookup (tasks : List (Nat × TCB)) (p : Nat) : Option TCB :=
  (List.find? (fun e => e.1 == p) tasks).map (fun e => e.2)

/-- Update every TCB in the task table in place, the update depending on
the entry's pid — the shape of the Rust in-place mutations of
`inner_exclusive_access`. -/
def map_update (tasks : List (Nat × TCB)) (g : Nat → TCB → TCB) :
    List (Nat × TCB) :=
  tasks.map (fun e => (e.1, g e.1 e.2))

theorem lookup_map_update (tasks : List (Nat × TCB)) (g : Nat → TCB → TCB)
    (p : Nat) :
    lookup (map_update tasks g) p = (lookup tasks p).map (g p) := by
  unfold map_update
  induction tasks with
  | nil => rfl
  | cons e rest ih =>
    unfold lookup at ih ⊢
    simp only [List.map_cons, List.find?_cons]
    by_cases h : e.1 = p
    · subst h
      simp
    · have hb : (e.1 == p) = false := by simp [h]
      simp only [hb]
      exact ih

theorem lookup_append (l1 l2 : List (Nat × TCB)) (p : Nat) :
    lookup (l1 ++ l2) p = (lookup l1 p).or (lookup l2 p) := by
  unfold lookup
  rw [List.find?_append]
  cases List.find? (fun e => e.1 == p) l1 <;> simp

/-- `pid as usize`: the Rust cast from isize, i.e. the value modulo 2^64. -/
def pid_as_usize (pid : Int) : Nat := (pid % (2 ^ 64 : Int)).toNat

/-- The match `pid == -1 || pid as usize == p.getpid()` of sys_waitpid
(syscall/process.rs:97 and 104). -/
def pid_match (pid : Int) (cpid : Nat) : Bool :=
  pid == -1 || pid_as_usize pid == cpid

/-- The predicate of sys_waitpid's `find` (syscall/process.rs:102): the
child is a Zombie and matches the requested pid. -/
def zombie_match (tasks : List (Nat × TCB)) (pid : Int) (cpid : Nat) : Bool :=
  (match lookup tasks cpid with
   | some t => t.status == TaskStatus.Zombie
   | none => false) && pid_match pid cpid

/-- Arc::strong_count of the removed child at the `assert_eq!` of
sys_waitpid (syscall/process.rs:110): one reference for the local `child`
binding plus one per remaining holder — an occurrence in any children list
(the caller's own list already lacking the removed slot), in the ready
queue, or in the processor's current slot. -/
def strong_count_after_remove (tasks2 : List (Nat × TCB)) (rq : List Nat)
    (cur : Option Nat) (cpid : Nat) : Nat :=
  1 + (tasks2.map (fun e => e.2.children.count cpid)).sum + rq.count cpid +
    (match cur with
     | some p => if p = cpid then 1 else 0
     | none => 0)

/-- sys_waitpid (syscall/process.rs:83): -1 when no child matches, -2 when
a child matches but none is a Zombie; otherwise remove the first matching
Zombie child, assert it is held nowhere else (a failing assert is the
kernel panic `none`), read its exit code, write it through the caller's
address space and return the child's pid.  The removed child's TCB is
dropped from the task table (per the source comment, the child is
deallocated once removed from the children list). -/
def sys_waitpid (k : Kernel) (pid : Int) (ptr : Nat) : Option (Kernel × Int) :=
  match k.current with
  | none => none
  | some me =>
    match lookup k.tasks me with
    | none => none
    | some task =>
      if ¬ task.children.any (fun p => pid_match pid p) then some (k, -1)
      else
        match task.children.findIdx? (fun p => zombie_match k.tasks pid p) with
        | none => some (k, -2)
        | some idx =>
          let cpid := task.children.getD idx 0
          let children2 := task.children.eraseIdx idx
          let tasks2 := map_update k.tasks (fun p t =>
            if p = me then { t with children := children2 } else t)
          if strong_count_after_remove tasks2 k.ready_queue k.current cpid ≠ 1
          then none
          else
            match lookup k.tasks cpid with
            | none => none
            | some child =>
              match get_pa_from_va task.memory_set.page_table ptr with
              | none => none
              | some pa =>
                some ({ k with
                  tasks := tasks2.filter (fun e => e.1 != cpid)
                  mem := Function.update k.mem pa child.exit_code },
                  (cpid : Int))

/-- TaskControlBlock::fork — not under src/.  Modelled from the spec §4.4:
allocate a new pid, deep-copy the memory set, copy the trap context, reset
counters, link the new TCB as a child with a parent back-reference, status
Ready. -/
def TCB.fork_child (parent : TCB) (parent_pid : Nat) : TCB :=
  { status := TaskStatus.Ready
    exit_code := 0
    parent := some parent_pid
    children := []
    fd_table := parent.fd_table
    trap_cx := parent.trap_cx
    memory_set := parent.memory_set }

/-- add_task — the task manager is not under src/.  Modelled from the spec
§4.5: the ready queue is a pure FIFO and `enqueue` appends at the tail. -/
def add_task (rq : List Nat) (pid : Nat) : List Nat := rq ++ [pid]

/-- sys_fork (syscall/process.rs:52): fork the current task, force the
child's saved return value to 0 by writing `x[10]` of its copied trap
context, enqueue the child in the ready queue, and return the new pid. -/
def sys_fork (k : Kernel) : Option (Kernel × Int) :=
  match k.current with
  | none => none
  | some me =>
    match lookup k.tasks me with
    | none => none
    | some task =>
      let new_pid := k.next_pid
      let child := TCB.fork_child task me
      let child2 := { child with trap_cx := ⟨child.trap_cx.x.set 10 0⟩ }
      some ({ k with
        tasks := map_update k.tasks (fun p t =>
            if p = me then { t with children := t.children ++ [new_pid] }
            else t)
          ++ [(new_pid, child2)]
        ready_queue := add_task k.ready_queue new_pid
        next_pid := k.next_pid + 1 }, (new_pid : Int))

/-- Modelled from the spec: `MemorySet::recycle_data_pages` unmaps and
frees every framed area's frames, keeping the root (§4.3); every area this
model tracks is framed, so the areas and their translations are dropped. -/
def recycle_data_pages (ms : MemorySet) : MemorySet :=
  { page_table := [], areas := [], next_ppn := ms.next_ppn }

/-- exit_current_and_run_next (task/mod.rs:77): take the current task; a
pid equal to IDLE_PID panics ("All applications completed!", modelled as
`none`).  Otherwise set status Zombie, record the exit code, repoint every
child's parent at INITPROC and append the children to INITPROC's list,
clear the own children list, recycle the address space's data pages, clear
the fd table, and schedule away without re-enqueueing the task (the
processor's current slot stays empty and the ready queue is untouched). -/
def exit_current_and_run_next (k : Kernel) (exit_code : Int) : Option Kernel :=
  match k.current with
  | none => none
  | some pid =>
    match lookup k.tasks pid with
    | none => none
    | some task =>
      if pid = IDLE_PID then none
      else
        some { k with
          current := none
          tasks := map_update k.tasks (fun p t =>
            if p = pid then
              { t with
                status := TaskStatus.Zombie
                exit_code := exit_code
                children := []
                memory_set := recycle_data_pages t.memory_set
                fd_table := [] }
            else
              let t1 := if p ∈ task.children then
                { t with parent := some INITPROC_PID } else t
              if p = INITPROC_PID then
                { t1 with children := t1.children ++ task.children }
              else t1) }

theorem findIdx?_all_false (p : Nat → Bool) : ∀ (l : List Nat) (i : Nat),
    (∀ c ∈ l, p c = false) → List.findIdx? p l i = none := by
  intro l
  induction l with
  | nil => intro i _; rfl
  | cons a rest ih =>
    intro i h
    rw [List.findIdx?_cons, if_neg (by simp [h a (List.mem_cons_self a rest)])]
    exact ih (i + 1) (fun c hc => h c (List.mem_cons_of_mem a hc))

theorem findIdx?_first (p : Nat → Bool) : ∀ (pre : List Nat) (x : Nat)
    (post : List Nat) (i : Nat),
    (∀ c ∈ pre, p c = false) → p x = true →
    List.findIdx? p (pre ++ x :: post) i = some (i + pre.length) := by
  intro pre
  induction pre with
  | nil =>
    intro x post i _ hx
    simp [List.findIdx?_cons, hx]
  | cons a rest ih =>
    intro x post i h hx
    rw [List.cons_append, List.findIdx?_cons,
      if_neg (by simp [h a (List.mem_cons_self a rest)])]
    rw [ih x post (i + 1) (fun c hc => h c (List.mem_cons_of_mem a hc)) hx]
    congr 1
    simp
    omega

theorem eraseIdx_append_length : ∀ (pre : List Nat) (x : Nat)
    (post : List Nat), (pre ++ x :: post).eraseIdx pre.length = pre ++ post := by
  intro pre
  induction pre with
  | nil => intro x post; rfl
  | cons a rest ih =>
    intro x post
    simp only [List.cons_append, List.length_cons, List.eraseIdx_cons_succ]
    rw [ih x post]

theorem getD_append_length : ∀ (pre : List Nat) (x : Nat) (post : List Nat),
    (pre ++ x :: post).getD pre.length 0 = x := by
  intro pre
  induction pre with
  | nil => intro x post; rfl
  | cons a rest ih =>
    intro x post
    simpa using ih x post

theorem lookup_filter_ne (l : List (Nat × TCB)) (cpid p : Nat) :
    lookup (l.filter (fun e => e.1 != cpid)) p =
      if p = cpid then none else lookup l p := by
  induction l with
  | nil => simp [lookup]
  | cons e rest ih =>
    unfold lookup at ih ⊢
    by_cases he : e.1 = cpid
    · rw [List.filter_cons_of_neg (by simp [he])]
      rw [ih]
      by_cases hp : p = cpid
      · simp [hp]
      · rw [if_neg hp, if_neg hp,
          List.find?_cons_of_neg rest (by simp [he]; omega)]
    · rw [List.filter_cons_of_pos (by simp [he])]
      by_cases hp : e.1 = p
      · have hnp : ¬p = cpid := by omega
        rw [if_neg hnp,
          List.find?_cons_of_pos (List.filter (fun e => e.1 != cpid) rest)
            (by simp [hp]),
          List.find?_cons_of_pos rest (by simp [hp])]
      · rw [List.find?_cons_of_neg (List.filter (fun e => e.1 != cpid) rest)
            (by simp [hp]),
          List.find?_cons_of_neg rest (by simp [hp])]
        exact ih

theorem pid_match_ofNat_ne (cpid c : Nat) (h1 : cpid < 2 ^ 64)
    (h2 : c ≠ cpid) : pid_match (cpid : Int) c = false := by
  unfold pid_match pid_as_usize
  have hne : ((cpid : Int) == -1) = false := by
    simp
  have hmod : (cpid : Int) % (2 : Int) ^ 64 = (cpid : Int) := by
    apply Int.emod_eq_of_lt
    · omega
    · push_cast
      omega
  rw [hne, hmod]
  simp
  omega

theorem findIdx?_first0 (p : Nat → Bool) (pre : List Nat) (x : Nat)
    (post : List Nat) (h : ∀ c ∈ pre, p c = false) (hx : p x = true) :
    List.findIdx? p (pre ++ x :: post) = some pre.length := by
  simpa using findIdx?_first p pre x post 0 h hx

/-- C2: `sys_waitpid` returns -1 when no child matches `pid` (with -1
matching any child); returns -2 when a matching child exists but none is a
Zombie; otherwise removes the first matching Zombie child from the
children list exactly once, asserts it is held nowhere else (a violated
assert is the kernel panic `none`), writes that child's exact exit code
through the caller's address space to `out_ptr` and returns the child's
pid; a second waitpid for the same already-reaped pid then returns -1. -/
theorem C2_sys_waitpid (k : Kernel) (me : Nat) (task : TCB) (pid : Int)
    (ptr : Nat)
    (hcur : k.current = some me)
    (htask : lookup k.tasks me = some task) :
    ((∀ c ∈ task.children, pid_match pid c = false) →
      sys_waitpid k pid ptr = some (k, -1)) ∧
    ((∃ c ∈ task.children, pid_match pid c = true) →
      (∀ c ∈ task.children, zombie_match k.tasks pid c = false) →
      sys_waitpid k pid ptr = some (k, -2)) ∧
    (∀ pre cpid post child pa,
      task.children = pre ++ cpid :: post →
      (∀ c ∈ pre, zombie_match k.tasks pid c = false) →
      zombie_match k.tasks pid cpid = true →
      lookup k.tasks cpid = some child →
      get_pa_from_va task.memory_set.page_table ptr = some pa →
      ((strong_count_after_remove
          (map_update k.tasks (fun p t =>
            if p = me then { t with children := pre ++ post } else t))
          k.ready_queue k.current cpid ≠ 1 →
        sys_waitpid k pid ptr = none) ∧
       (strong_count_after_remove
          (map_update k.tasks (fun p t =>
            if p = me then { t with children := pre ++ post } else t))
          k.ready_queue k.current cpid = 1 →
        ∃ k2, sys_waitpid k pid ptr = some (k2, (cpid : Int)) ∧
          k2.mem pa = child.exit_code ∧
          k2.current = k.current ∧
          (¬me = cpid →
            lookup k2.tasks me =
              some { task with children := pre ++ post }) ∧
          lookup k2.tasks cpid = none ∧
          (¬me = cpid → cpid ∉ pre → cpid ∉ post → cpid < 2 ^ 64 →
            sys_waitpid k2 (cpid : Int) ptr = some (k2, -1))))) := by
  refine ⟨?_, ?_, ?_⟩
  · intro hall
    unfold sys_waitpid
    simp only [hcur, htask]
    rw [if_pos (by simp; intro x hx; simp [hall x hx])]
  · intro hex hnz
    unfold sys_waitpid
    simp only [hcur, htask]
    have hany : task.children.any (fun p => pid_match pid p) = true := by
      rw [List.any_eq_true]
      obtain ⟨c, hc, hpm⟩ := hex
      exact ⟨c, hc, hpm⟩
    rw [if_neg (by simp [hany])]
    rw [findIdx?_all_false _ _ _ (fun c hc => hnz c hc)]
  · intro pre cpid post child pa hchild hpre hz hlook hpa
    have hmem : cpid ∈ task.children := by
      rw [hchild]
      simp
    have hpm : pid_match pid cpid = true := by
      unfold zombie_match at hz
      rw [Bool.and_eq_true] at hz
      exact hz.2
    unfold sys_waitpid
    simp only [hcur, htask]
    rw [if_neg (by
      simp only [not_not, List.any_eq_true]
      exact ⟨cpid, hmem, hpm⟩)]
    rw [hchild, findIdx?_first0 _ pre cpid post hpre hz]
    simp only [getD_append_length, eraseIdx_append_length]
    refine ⟨fun hsc => ?_, fun hsc => ?_⟩
    · rw [if_pos hsc]
    · rw [if_neg (fun h => h hsc), hlook, hpa]
      refine ⟨_, rfl, by simp, rfl, ?_, ?_, ?_⟩
      · intro hme
        rw [lookup_filter_ne, if_neg hme, lookup_map_update, htask]
        simp
      · rw [lookup_filter_ne, if_pos rfl]
      · intro hme hnpre hnpost hlt
        have hm2 : lookup (List.filter (fun e => e.1 != cpid)
              (map_update k.tasks (fun p t =>
                if p = me then { t with children := pre ++ post } else t))) me =
            some { task with children := pre ++ post } := by
          rw [lookup_filter_ne, if_neg hme, lookup_map_update, htask]
          simp
        simp only [sys_waitpid, hcur, hm2]
        rw [if_pos (by
          simp only [List.any_eq_true, not_exists]
          intro x
          simp only [not_and]
          intro hx
          simp only [Bool.not_eq_true]
          apply pid_match_ofNat_ne cpid x hlt
          intro hxc
          rw [hxc] at hx
          rcases List.mem_append.mp hx with h | h
          · exact hnpre h
          · exact hnpost h)]

/-- Witness for C2 on a concrete kernel: caller pid 1 has children 2
(Running) and 3 (Zombie, exit code 42); waitpid(-1, ptr) reaps pid 3,
writes 42 through the caller's address space (virtual 4 translates to
physical 8196), drops the child's TCB, and a second waitpid for pid 3
returns -1. -/
theorem C2_witness :
    ∃ k2,
      sys_waitpid
        ⟨[(1, ⟨TaskStatus.Running, 0, none, [2, 3], [], ⟨[]⟩,
            ⟨[(0, 2)], [], 0⟩⟩),
          (2, ⟨TaskStatus.Running, 0, some 1, [], [], ⟨[]⟩, ⟨[], [], 0⟩⟩),
          (3, ⟨TaskStatus.Zombie, 42, some 1, [], [], ⟨[]⟩, ⟨[], [], 0⟩⟩)],
          some 1, [], fun _ => 0, 4⟩ (-1) 4 = some (k2, ((3 : Nat) : Int)) ∧
      k2.mem 8196 = 42 ∧
      lookup k2.tasks 3 = none ∧
      sys_waitpid k2 ((3 : Nat) : Int) 4 = some (k2, -1) := by
  have h := C2_sys_waitpid
    ⟨[(1, ⟨TaskStatus.Running, 0, none, [2, 3], [], ⟨[]⟩,
        ⟨[(0, 2)], [], 0⟩⟩),
      (2, ⟨TaskStatus.Running, 0, some 1, [], [], ⟨[]⟩, ⟨[], [], 0⟩⟩),
      (3, ⟨TaskStatus.Zombie, 42, some 1, [], [], ⟨[]⟩, ⟨[], [], 0⟩⟩)],
      some 1, [], fun _ => 0, 4⟩ 1
    ⟨TaskStatus.Running, 0, none, [2, 3], [], ⟨[]⟩, ⟨[(0, 2)], [], 0⟩⟩
    (-1) 4 rfl rfl
  have h3 := h.2.2 [2] 3 []
    ⟨TaskStatus.Zombie, 42, some 1, [], [], ⟨[]⟩, ⟨[], [], 0⟩⟩ 8196
    rfl (by decide) (by decide) rfl (by decide)
  obtain ⟨k2, hw1, hw2, hw3, hw4, hw5, hw6⟩ := h3.2 (by decide)
  exact ⟨k2, hw1, hw2.trans rfl, hw5,
    hw6 (by decide) (by decide) (by decide) (by decide)⟩

/-- C5: `sys_fork` forces the child's saved return value to 0 by writing
x[10] of the child's copied trap context, enqueues the child at the tail
of the ready queue, and returns the newly allocated child pid to the
parent; the child is linked under the parent's children list. -/
theorem C5_sys_fork (k : Kernel) (me : Nat) (task : TCB)
    (hcur : k.current = some me)
    (htask : lookup k.tasks me = some task)
    (hfresh : lookup k.tasks k.next_pid = none)
    (hlen : 10 < task.trap_cx.x.length) :
    ∃ k2, sys_fork k = some (k2, (k.next_pid : Int)) ∧
      lookup k2.tasks k.next_pid =
        some { TCB.fork_child task me with
          trap_cx := ⟨task.trap_cx.x.set 10 0⟩ } ∧
      (task.trap_cx.x.set 10 0)[10]? = some 0 ∧
      k2.ready_queue = k.ready_queue ++ [k.next_pid] ∧
      lookup k2.tasks me =
        some { task with children := task.children ++ [k.next_pid] } := by
  have hme_ne : ¬me = k.next_pid := by
    intro hcontr
    rw [hcontr, hfresh] at htask
    cases htask
  unfold sys_fork
  simp only [hcur, htask]
  refine ⟨_, rfl, ?_, ?_, rfl, ?_⟩
  · rw [lookup_append, lookup_map_update, hfresh]
    simp [lookup, TCB.fork_child]
  · rw [List.getElem?_set_self (by simpa using hlen)]
  · rw [lookup_append, lookup_map_update, htask]
    simp

/-- Witness for C5 on a concrete one-task kernel: the fork returns pid 1,
the child's x[10] reads 0, and pid 1 is appended to the ready queue. -/
theorem C5_witness :
    ∃ k2,
      sys_fork ⟨[(0, ⟨TaskStatus.Running, 0, none, [], [3],
          ⟨[9, 9, 9, 9, 9, 9, 9, 9, 9, 9, 9, 9]⟩, ⟨[], [], 0⟩⟩)],
        some 0, [], fun _ => 0, 1⟩ = some (k2, 1) ∧
      lookup k2.tasks 1 =
        some ⟨TaskStatus.Ready, 0, some 0, [], [3],
          ⟨[9, 9, 9, 9, 9, 9, 9, 9, 9, 9, 0, 9]⟩, ⟨[], [], 0⟩⟩ ∧
      k2.ready_queue = [1] := by
  obtain ⟨k2, h1, h2, h3, h4, h5⟩ := C5_sys_fork
    ⟨[(0, ⟨TaskStatus.Running, 0, none, [], [3],
        ⟨[9, 9, 9, 9, 9, 9, 9, 9, 9, 9, 9, 9]⟩, ⟨[], [], 0⟩⟩)],
      some 0, [], fun _ => 0, 1⟩ 0
    ⟨TaskStatus.Running, 0, none, [], [3],
      ⟨[9, 9, 9, 9, 9, 9, 9, 9, 9, 9, 9, 9]⟩, ⟨[], [], 0⟩⟩
    rfl rfl rfl (by decide)
  refine ⟨k2, h1, ?_, h4⟩
  rw [h2]
  rfl

/-- C6: `exit_current_and_run_next` on a non-idle task sets its status to
Zombie, stores the exit code, hands every child to the init process (each
child's parent back-reference now points at INITPROC and the children are
appended to INITPROC's list), empties the exiting task's own children list
and open-file table, releases its address-space frames, and transfers
control away: the processor's current slot is left empty, the ready queue
is untouched and the exited pid is never re-enqueued, so the scheduler can
never resume it. -/
theorem C6_exit_semantics (k : Kernel) (pid : Nat) (task init : TCB)
    (code : Int)
    (hcur : k.current = some pid)
    (htask : lookup k.tasks pid = some task)
    (hpid : ¬pid = IDLE_PID)
    (hinit : lookup k.tasks INITPROC_PID = some init)
    (hc_self : pid ∉ task.children)
    (hc_init : INITPROC_PID ∉ task.children) :
    ∃ k2, exit_current_and_run_next k code = some k2 ∧
      k2.current = none ∧
      k2.ready_queue = k.ready_queue ∧
      lookup k2.tasks pid = some { task with
        status := TaskStatus.Zombie
        exit_code := code
        children := []
        memory_set := recycle_data_pages task.memory_set
        fd_table := [] } ∧
      (∀ c ∈ task.children, lookup k2.tasks c =
        (lookup k.tasks c).map
          (fun t => { t with parent := some INITPROC_PID })) ∧
      lookup k2.tasks INITPROC_PID =
        some { init with children := init.children ++ task.children } ∧
      (pid ∉ k.ready_queue → pid ∉ k2.ready_queue) := by
  unfold exit_current_and_run_next
  simp only [hcur, htask, if_neg hpid]
  refine ⟨_, rfl, rfl, rfl, ?_, ?_, ?_, fun h => h⟩
  · rw [lookup_map_update, htask]
    simp
  · intro c hc
    rw [lookup_map_update]
    have hc_pid : ¬c = pid := fun hh => hc_self (hh ▸ hc)
    have hc_i : ¬c = INITPROC_PID := fun hh => hc_init (hh ▸ hc)
    cases lookup k.tasks c
    · rfl
    · simp [hc_pid, hc, hc_i]
  · rw [lookup_map_update, hinit]
    have h1 : ¬INITPROC_PID = pid := fun hh => hpid hh.symm
    simp [h1, hc_init]

/-- Witness for C6 on a concrete three-task kernel (init 0, current 1 with
child 2): after exit the task 1 record is a Zombie with code 7, empty
children and fd table and a recycled memory set, child 2's parent points
at pid 0, init's children list is [1, 2], and the current slot is empty. -/
theorem C6_witness :
    ∃ k2,
      exit_current_and_run_next
        ⟨[(0, ⟨TaskStatus.Ready, 0, none, [1], [], ⟨[]⟩, ⟨[], [], 0⟩⟩),
          (1, ⟨TaskStatus.Running, 0, some 0, [2], [5], ⟨[]⟩,
            ⟨[(3, 4)], [⟨3, 4, 0⟩], 9⟩⟩),
          (2, ⟨TaskStatus.Ready, 0, some 1, [], [], ⟨[]⟩, ⟨[], [], 0⟩⟩)],
          some 1, [], fun _ => 0, 3⟩ 7 = some k2 ∧
      lookup k2.tasks 1 =
        some ⟨TaskStatus.Zombie, 7, some 0, [], [], ⟨[]⟩, ⟨[], [], 9⟩⟩ ∧
      lookup k2.tasks 2 =
        some ⟨TaskStatus.Ready, 0, some 0, [], [], ⟨[]⟩, ⟨[], [], 0⟩⟩ ∧
      lookup k2.tasks 0 =
        some ⟨TaskStatus.Ready, 0, none, [1, 2], [], ⟨[]⟩, ⟨[], [], 0⟩⟩ ∧
      k2.current = none := by
  obtain ⟨k2, h1, h2, h3, h4, h5, h6, h7⟩ := C6_exit_semantics
    ⟨[(0, ⟨TaskStatus.Ready, 0, none, [1], [], ⟨[]⟩, ⟨[], [], 0⟩⟩),
      (1, ⟨TaskStatus.Running, 0, some 0, [2], [5], ⟨[]⟩,
        ⟨[(3, 4)], [⟨3, 4, 0⟩], 9⟩⟩),
      (2, ⟨TaskStatus.Ready, 0, some 1, [], [], ⟨[]⟩, ⟨[], [], 0⟩⟩)],
      some 1, [], fun _ => 0, 3⟩ 1
    ⟨TaskStatus.Running, 0, some 0, [2], [5], ⟨[]⟩, ⟨[(3, 4)], [⟨3, 4, 0⟩], 9⟩⟩
    ⟨TaskStatus.Ready, 0, none, [1], [], ⟨[]⟩, ⟨[], [], 0⟩⟩ 7
    rfl rfl (by decide) rfl (by decide) (by decide)
  refine ⟨k2, h1, ?_, ?_, ?_, h2⟩
  · rw [h4]
    rfl
  · have h := h5 2 (by decide)
    rw [h]
    rfl
  · exact h6.trans rfl

/-- C10: `exit_current_and_run_next` on the task whose pid equals IDLE_PID
(0) panics ("All applications completed!") instead of performing the
Running-to-Zombie transition: there is no successor kernel state. -/
theorem C10_idle_exit_panics (k : Kernel) (code : Int)
    (h : k.current = some IDLE_PID) :
    exit_current_and_run_next k code = none := by
  unfold exit_current_and_run_next
  rw [h]
  cases hl : lookup k.tasks IDLE_PID <;> simp [hl]

/-- Witness for C10: a concrete kernel whose current task is pid 0. -/
theorem C10_witness :
    exit_current_and_run_next
      ⟨[(0, ⟨TaskStatus.Running, 0, none, [], [], ⟨[]⟩, ⟨[], [], 0⟩⟩)],
        some 0, [], fun _ => 0, 1⟩ 5 = none :=
  C10_idle_exit_panics
    ⟨[(0, ⟨TaskStatus.Running, 0, none, [], [], ⟨[]⟩, ⟨[], [], 0⟩⟩)],
      some 0, [], fun _ => 0, 1⟩ 5 rfl

end RCore
